import Mathlib

/-!
Verification development for the HarmoniQ Insights widget backend
(`src/main.py`).

The program fetches historical close-price series for fixed baskets of
symbols and derives trailing-window percent changes, CAGR values and
normalized chart traces.  The six table endpoints and six chart endpoints
repeat one routine verbatim over different baskets; we embed the
equities pair (`get_equities_table`, `get_equity_performance`) with the
basket and the data source as parameters, which covers all twelve.

Numbers: the Python code computes with `numpy.float64` scalars (the
values come out of a pandas column).  We model a float as an exact
rational together with the IEEE special values `+inf`, `-inf`, `nan`
(`Fl` below); binary representation error is out of scope.  numpy
float64 arithmetic never raises on a domain error: `x / 0.0` gives
`±inf` or `nan` with a `RuntimeWarning`, and a negative base to a
non-integer power gives `nan`.  The one power operation applied to a
positive finite base is kept abstract as a parameter `powf`.

Dates: `datetime` values are modelled by the civil (proleptic Gregorian)
day number `rd y m d` plus a fractional-day time component; the
`datetime(y, m, d)` constructor, which raises `ValueError` on an invalid
date, becomes the `Option`-valued `mkDatetime`.
-/

namespace Harmoniq

/-- Half-to-even rounding of a rational to an integer: the rounding used
by Python's builtin `round` and by `numpy.round`. -/
def rhe (x : ℚ) : ℤ :=
  if x - ⌊x⌋ < 1/2 then ⌊x⌋
  else if (1:ℚ)/2 < x - ⌊x⌋ then ⌊x⌋ + 1
  else if ⌊x⌋ % 2 = 0 then ⌊x⌋ else ⌊x⌋ + 1

/-- Python `round(x, n)` on (exact-valued) floats: half-to-even rounding
to `n` decimal digits. -/
def roundQ (n : ℕ) (x : ℚ) : ℚ :=
  (rhe (x * 10 ^ n) : ℚ) / 10 ^ n

/-- Exact-valued model of a `numpy.float64` scalar: a rational or one of
the special values.  Representation error is out of scope; the special
values are needed because the source's "skip on failure" policy turns on
`np.isnan` and on division by a zero close. -/
inductive Fl where
  | fin (q : ℚ)
  | pinf
  | ninf
  | nan
deriving DecidableEq

namespace Fl

/-- Model of `np.isnan`. -/
def isnan : Fl → Bool
  | nan => true
  | _ => false

/-- Float subtraction. -/
def sub : Fl → Fl → Fl
  | nan, _ => nan
  | _, nan => nan
  | pinf, pinf => nan
  | pinf, _ => pinf
  | ninf, ninf => nan
  | ninf, _ => ninf
  | fin _, pinf => ninf
  | fin _, ninf => pinf
  | fin a, fin b => fin (a - b)

/-- Float multiplication (signed zeros ignored; `0 * inf = nan`). -/
def mul : Fl → Fl → Fl
  | nan, _ => nan
  | _, nan => nan
  | fin a, fin b => fin (a * b)
  | fin a, pinf => if 0 < a then pinf else if a < 0 then ninf else nan
  | fin a, ninf => if 0 < a then ninf else if a < 0 then pinf else nan
  | pinf, fin b => if 0 < b then pinf else if b < 0 then ninf else nan
  | ninf, fin b => if 0 < b then ninf else if b < 0 then pinf else nan
  | pinf, pinf => pinf
  | pinf, ninf => ninf
  | ninf, pinf => ninf
  | ninf, ninf => pinf

/-- Float division: division by a zero close yields `±inf` (or `nan` for
`0/0`) with only a `RuntimeWarning` in numpy, never an exception. -/
def div : Fl → Fl → Fl
  | nan, _ => nan
  | _, nan => nan
  | fin a, fin b =>
      if b = 0 then (if 0 < a then pinf else if a < 0 then ninf else nan)
      else fin (a / b)
  | fin _, pinf => fin 0
  | fin _, ninf => fin 0
  | pinf, fin b => if 0 ≤ b then pinf else ninf
  | ninf, fin b => if 0 ≤ b then ninf else pinf
  | pinf, _ => nan
  | ninf, _ => nan

/-- Float power `b ** e` (IEEE 754 / numpy `power` semantics).  The
transcendental case — positive finite base, finite non-zero exponent —
is delegated to the abstract parameter `f`; a negative finite base with
a non-integer exponent is a domain error and gives `nan` in numpy. -/
def pow (f : ℚ → ℚ → ℚ) : Fl → Fl → Fl
  | fin a, fin e =>
      if e = 0 then fin 1
      else if 0 < a then fin (f a e)
      else if a = 0 then (if 0 < e then fin 0 else pinf)
      else if e.den = 1 then fin (a ^ e.num) else nan
  | pinf, fin e => if e = 0 then fin 1 else if 0 < e then pinf else fin 0
  | ninf, fin e =>
      if e = 0 then fin 1
      else if 0 < e then (if e.den = 1 ∧ e.num % 2 ≠ 0 then ninf else pinf)
      else fin 0
  | nan, fin e => if e = 0 then fin 1 else nan
  | fin a, pinf => if a = 1 ∨ a = -1 then fin 1 else if -1 < a ∧ a < 1 then fin 0 else pinf
  | fin a, ninf => if a = 1 ∨ a = -1 then fin 1 else if -1 < a ∧ a < 1 then pinf else fin 0
  | fin a, nan => if a = 1 then fin 1 else nan
  | pinf, pinf => pinf
  | pinf, ninf => fin 0
  | pinf, nan => nan
  | ninf, pinf => pinf
  | ninf, ninf => fin 0
  | ninf, nan => nan
  | nan, pinf => nan
  | nan, ninf => nan
  | nan, nan => nan

/-- Python `round(x, 1)` extended to special values: `round` is the
identity on `±inf` and `nan`. -/
def roundTo (n : ℕ) : Fl → Fl
  | fin a => fin (roundQ n a)
  | x => x

end Fl

/-- Proleptic-Gregorian leap-year rule used by `datetime`. -/
def isLeap (y : ℤ) : Prop :=
  y % 4 = 0 ∧ (y % 100 ≠ 0 ∨ y % 400 = 0)

instance (y : ℤ) : Decidable (isLeap y) := by
  unfold isLeap; infer_instance

/-- Length of a month in the proleptic Gregorian calendar. -/
def daysInMonth (y m : ℤ) : ℤ :=
  if m = 2 then (if isLeap y then 29 else 28)
  else if m = 4 ∨ m = 6 ∨ m = 9 ∨ m = 11 then 30
  else 31

/-- Day of the (March-shifted) year for a month/day pair, as in the
standard civil-from-days algorithm. -/
def doy (m d : ℤ) : ℤ :=
  (153 * (if 2 < m then m - 3 else m + 9) + 2) / 5 + d - 1

/-- Civil day number (days since 1970-01-01) of a calendar date; closed
form of the standard `days_from_civil` algorithm.  This models the day
arithmetic that `datetime` subtraction performs. -/
def rd (y m d : ℤ) : ℤ :=
  365 * (if m ≤ 2 then y - 1 else y)
    + (if m ≤ 2 then y - 1 else y) / 4
    - (if m ≤ 2 then y - 1 else y) / 100
    + (if m ≤ 2 then y - 1 else y) / 400
    + doy m d - 719468

/-- Model of the `datetime(y, m, d)` constructor: the day number when
the fields form a valid date, `none` when the constructor would raise
`ValueError` (e.g. February 29 of a non-leap year). -/
def mkDatetime (y m d : ℤ) : Option ℤ :=
  if 1 ≤ y ∧ y ≤ 9999 ∧ 1 ≤ m ∧ m ≤ 12 ∧ 1 ≤ d ∧ d ≤ daysInMonth y m then
    some (rd y m d)
  else none

/-- A `datetime.now()` value: calendar fields plus the time of day as a
fraction of a day. -/
structure Dt where
  year : ℤ
  month : ℤ
  day : ℤ
  frac : ℚ

/-- The reference instant is an actual clock reading: valid calendar
fields and a time of day in `[0, 1)`. -/
def Dt.Valid (t : Dt) : Prop :=
  1 ≤ t.year ∧ t.year ≤ 9999 ∧ 1 ≤ t.month ∧ t.month ≤ 12 ∧
    1 ≤ t.day ∧ t.day ≤ daysInMonth t.year t.month ∧ 0 ≤ t.frac ∧ t.frac < 1

/-- Absolute timestamp of a `datetime` value, in days. -/
def Dt.ts (t : Dt) : ℚ :=
  (rd t.year t.month t.day : ℚ) + t.frac

/-- The five window-start timestamps computed at the top of every table
endpoint. -/
structure Windows where
  start5d : ℚ
  startMtd : ℚ
  startYtd : ℚ
  start5y : ℚ
  start10y : ℚ

/-- Window-start computation of the table endpoints (src/main.py lines
116-121): `start_ytd = datetime(year, 1, 1)`, `start_mtd =
datetime(year, month, 1)`, `start_5d = end_date - timedelta(days=5)`,
`start_5y = datetime(year - 5, month, day)`, `start_10y =
datetime(year - 10, month, day)`.  The whole computation fails (the
endpoint raises before touching any symbol) when a constructor call
raises. -/
def tableWindows (now : Dt) : Option Windows :=
  match mkDatetime now.year 1 1, mkDatetime now.year now.month 1,
      mkDatetime (now.year - 5) now.month now.day,
      mkDatetime (now.year - 10) now.month now.day with
  | some ytd, some mtd, some y5, some y10 =>
      some ⟨now.ts - 5, (mtd : ℚ), (ytd : ℚ), (y5 : ℚ), (y10 : ℚ)⟩
  | _, _, _, _ => none

/-- The `time_periods` dict built by every chart endpoint (src/main.py
lines 1037-1044); the same five constructions as the table endpoints,
all evaluated eagerly when the dict is built. -/
def chartTimePeriods (now : Dt) : Option Windows :=
  match mkDatetime now.year 1 1, mkDatetime now.year now.month 1,
      mkDatetime (now.year - 5) now.month now.day,
      mkDatetime (now.year - 10) now.month now.day with
  | some ytd, some mtd, some y5, some y10 =>
      some ⟨now.ts - 5, (mtd : ℚ), (ytd : ℚ), (y5 : ℚ), (y10 : ℚ)⟩
  | _, _, _, _ => none

/-- Python `str.lower()`. -/
def strLower (s : String) : String :=
  ⟨s.data.map Char.toLower⟩

/-- Chart period selection (src/main.py line 1047):
`time_periods.get(start_date.lower(), time_periods['ytd'])` — the
token is lowercased, an unknown token silently falls back to the `ytd`
window. -/
def chartStartSel (startDate : String) (w : Windows) : ℚ :=
  if strLower startDate = "5d" then w.start5d
  else if strLower startDate = "mtd" then w.startMtd
  else if strLower startDate = "ytd" then w.startYtd
  else if strLower startDate = "5y" then w.start5y
  else if strLower startDate = "10y" then w.start10y
  else w.startYtd

/-- One row of the fetched price dataframe: timestamp (index) and close.
Close prices come from the provider as finite floats, hence plain
rationals here. -/
structure Pt where
  ts : ℚ
  close : ℚ
deriving DecidableEq

/-- The dataframe index is ascending by timestamp with unique
timestamps. -/
def Ascending (l : List Pt) : Prop :=
  l.Chain' (fun p q => p.ts < q.ts)

/-- Boolean-mask row selection, `df.index[df.index >= start][0]`
followed by the `.loc` close lookup: the first row (in dataframe order)
whose timestamp is at or after `start`, if the mask matches at all. -/
def maskFirst (l : List Pt) (start : ℚ) : Option Pt :=
  (l.filter (fun p => decide (start ≤ p.ts))).head?

/-- Close of the last row, `df['close'].iloc[-1]`. -/
def lastClose (l : List Pt) : ℚ :=
  (l.getLastD ⟨0, 0⟩).close

/-- Trailing-window percent change,
`((latest_close - window_close) / window_close) * 100`, in float
arithmetic. -/
def pctChange (latestClose windowClose : ℚ) : Fl :=
  Fl.mul (Fl.div (Fl.sub (.fin latestClose) (.fin windowClose)) (.fin windowClose)) (.fin 100)

/-- Elapsed years, `(end_date - start).days / 365.25`; `.days` of a
timedelta is its floor in whole days. -/
def yearsFrom (nowTs start : ℚ) : ℚ :=
  (⌊nowTs - start⌋ : ℚ) / (1461 / 4)

/-- CAGR value, `(((latest_price / window_close) ** (1 / years)) - 1) *
100`, in float arithmetic.  (`1 / years` is Python float division; for
windows produced by the resolver `years` is about 5 or 10, never 0 —
see the elapsed-days bounds proved below.) -/
def cagrOf (powf : ℚ → ℚ → ℚ) (latestPrice windowClose years : ℚ) : Fl :=
  Fl.mul (Fl.sub (Fl.pow powf (Fl.div (.fin latestPrice) (.fin windowClose)) (.fin (1 / years))) (.fin 1))
    (.fin 100)

/-- Output formatting of one metric cell:
`round(float(x), 1) if not np.isnan(x) else None`. -/
def outField (x : Fl) : Option Fl :=
  if x.isnan then none else some (x.roundTo 1)

/-- One trailing-window cell of a row (the 5D / MTD / YTD blocks,
src/main.py lines 139-174): mask the window, percent change when the
mask matches, `np.nan` otherwise, then output formatting. -/
def windowField (l : List Pt) (start : ℚ) : Option Fl :=
  outField (match maskFirst l start with
    | some p => pctChange (lastClose l) p.close
    | none => Fl.nan)

/-- One CAGR cell of a row (the 5Y / 10Y blocks, src/main.py lines
176-194): mask the window, CAGR from the rounded latest price and the
first masked close when the mask matches, `np.nan` otherwise, then
output formatting. -/
def cagrField (powf : ℚ → ℚ → ℚ) (l : List Pt) (start nowTs : ℚ) : Option Fl :=
  outField (match maskFirst l start with
    | some p => cagrOf powf (roundQ 2 (lastClose l)) p.close (yearsFrom nowTs start)
    | none => Fl.nan)

/-- One output row of a table endpoint. -/
structure Row where
  label : String
  d5 : Option Fl
  mtd : Option Fl
  ytd : Option Fl
  cagr5y : Option Fl
  cagr10y : Option Fl
  value : ℚ
deriving DecidableEq

/-- Per-symbol row computation of the table endpoints (src/main.py
lines 137-204): `latest_price = round(close[-1], 2)`, the five metric
cells, and `Value = round(float(latest_price), 1)`. -/
def symbolRow (powf : ℚ → ℚ → ℚ) (name : String) (w : Windows) (now : Dt) (l : List Pt) : Row :=
  { label := name
    d5 := windowField l w.start5d
    mtd := windowField l w.startMtd
    ytd := windowField l w.startYtd
    cagr5y := cagrField powf l w.start5y now.ts
    cagr10y := cagrField powf l w.start10y now.ts
    value := roundQ 1 (roundQ 2 (lastClose l)) }

/-- Per-symbol step of the table loop: a fetch failure (`none`, the
`except` path) or an empty/short series (`len < 2`) skips the symbol;
otherwise the row is produced. -/
def rowFor (powf : ℚ → ℚ → ℚ) (fetch : String → Option (List Pt)) (w : Windows) (now : Dt)
    (sn : String × String) : Option Row :=
  match fetch sn.1 with
  | none => none
  | some l => if l.length < 2 then none else some (symbolRow powf sn.2 w now l)

/-- The table loop over a symbol basket, preserving basket order. -/
def tableRows (powf : ℚ → ℚ → ℚ) (basket : List (String × String))
    (fetch : String → Option (List Pt)) (w : Windows) (now : Dt) : List Row :=
  basket.filterMap (rowFor powf fetch w now)

/-- The equities table basket, in declaration order. -/
def equitySymbols : List (String × String) :=
  [("^NDX", "NASDAQ"), ("^GSPC", "S&P 500"), ("VEU", "IEF (Global Ex-US)"),
    ("FEZ", "STOXX 50"), ("^N225", "NIKKEI"), ("ASHR", "CSI 300")]

/-- The `/equities_table` endpoint (src/main.py lines 104-209), with the
data source abstracted as `fetch` and the positive-base float power as
`powf`.  The five other `*_table` endpoints repeat this body verbatim
over other baskets. -/
def get_equities_table (powf : ℚ → ℚ → ℚ) (fetch : String → Option (List Pt)) (now : Dt) :
    Option (List Row) :=
  (tableWindows now).map (fun w => tableRows powf equitySymbols fetch w now)

/-- One plotted line of a chart endpoint: x values (dates) and
normalized y values. -/
structure Trace where
  label : String
  x : List ℚ
  y : List Fl
deriving DecidableEq

/-- Chart normalization (src/main.py line 1083):
`df['close'] / df['close'].iloc[0] * 100`, elementwise float
arithmetic. -/
def normalizeSeries (l : List Pt) : List Fl :=
  l.map (fun p => Fl.mul (Fl.div (.fin p.close) (.fin (l.headD ⟨0, 0⟩).close)) (.fin 100))

/-- Per-symbol step of the chart loop: skip on fetch failure or a short
series, otherwise plot the normalized series. -/
def traceFor (fetch : String → ℚ → Option (List Pt)) (s : ℚ) (sn : String × String) :
    Option Trace :=
  match fetch sn.1 s with
  | none => none
  | some l =>
      if l.length < 2 then none
      else some { label := sn.2, x := l.map Pt.ts, y := normalizeSeries l }

/-- The chart loop over a symbol basket, preserving basket order. -/
def chartTraces (basket : List (String × String)) (fetch : String → ℚ → Option (List Pt))
    (s : ℚ) : List Trace :=
  basket.filterMap (traceFor fetch s)

/-- The equity performance basket, in declaration order. -/
def perfSymbols : List (String × String) :=
  [("^GSPC", "S&P 500"), ("^DJI", "Dow Jones"), ("^IXIC", "NASDAQ"),
    ("^FTSE", "FTSE 100"), ("^N225", "Nikkei 225"), ("^HSI", "Hang Seng")]

/-- The `/equity_performance` endpoint (src/main.py lines 1034-1100),
with the data source abstracted as `fetch` (the selected window start is
what the code passes to the provider as `start_date`).  The five other
`*_performance` endpoints repeat this body verbatim over other
baskets. -/
def get_equity_performance (startDate : String) (fetch : String → ℚ → Option (List Pt))
    (now : Dt) : Option (List Trace) :=
  (chartTimePeriods now).map (fun w => chartTraces perfSymbols fetch (chartStartSel startDate w))

/-- Comparator for the refinement claims, written from the spec's words:
the window close is the close of the first series point with timestamp
at or after the window start. -/
def specWindowClose (l : List Pt) (start : ℚ) : Option ℚ :=
  (l.find? (fun p => decide (start ≤ p.ts))).map Pt.close

/-- Comparator from the spec's words: the trailing-window metric is
`(latest_close - window_close) / window_close * 100` rounded to 1
decimal, absent when no point is at or after the window start;
`latest_close` is the unrounded last close. -/
def specPct (l : List Pt) (start : ℚ) : Option ℚ :=
  (specWindowClose l start).map (fun wc => roundQ 1 ((lastClose l - wc) / wc * 100))

/-- Comparator from the spec's words: CAGR is
`((latest / window_close) ** (1 / years) - 1) * 100` rounded to 1
decimal, with `latest` the last close pre-rounded to 2 decimals and
`years = (now - window_start).days / 365.25` taken from the fixed
window start. -/
def specCagr (powf : ℚ → ℚ → ℚ) (l : List Pt) (start nowTs : ℚ) : Option ℚ :=
  (specWindowClose l start).map (fun wc =>
    roundQ 1 ((powf (roundQ 2 (lastClose l) / wc) (1 / yearsFrom nowTs start) - 1) * 100))

/-! ### Helper lemmas -/

theorem floorEval (x : ℚ) (n : ℤ) (h1 : (n : ℚ) ≤ x) (h2 : x < n + 1) : ⌊x⌋ = n :=
  Int.floor_eq_iff.mpr ⟨h1, h2⟩

theorem floor_int_add_frac (n : ℤ) (f : ℚ) (h0 : 0 ≤ f) (h1 : f < 1) :
    ⌊(n : ℚ) + f⌋ = n := by
  rw [add_comm, Int.floor_add_int, Int.floor_eq_zero_iff.mpr ⟨h0, h1⟩, zero_add]

theorem maskFirst_eq_find (l : List Pt) (s : ℚ) :
    maskFirst l s = l.find? (fun p => decide (s ≤ p.ts)) := by
  unfold maskFirst
  induction l with
  | nil => rfl
  | cons a t ih =>
      by_cases h : s ≤ a.ts <;> simp [List.filter_cons, List.find?, h, ih]

theorem maskFirst_cons (p : Pt) (l : List Pt) (s : ℚ) :
    maskFirst (p :: l) s = if s ≤ p.ts then some p else maskFirst l s := by
  by_cases h : s ≤ p.ts <;> simp [maskFirst, List.filter_cons, h]

theorem maskFirst_mem {l : List Pt} {s : ℚ} {p : Pt} (h : maskFirst l s = some p) :
    p ∈ l := by
  rw [maskFirst_eq_find] at h
  exact List.mem_of_find?_eq_some h

theorem den_ne_one_of_pos_lt_one (e : ℚ) (h0 : 0 < e) (h1 : e < 1) : e.den ≠ 1 := by
  intro hd
  have he : e = (e.num : ℚ) := by
    rw [← Rat.num_div_den e, hd]; norm_num
  rw [he] at h0 h1
  have h0' : (0 : ℤ) < e.num := by exact_mod_cast h0
  have h1' : e.num < 1 := by exact_mod_cast h1
  omega

theorem Fl.div_fin (a b : ℚ) (h : b ≠ 0) : Fl.div (.fin a) (.fin b) = .fin (a / b) := by
  simp [Fl.div, h]

theorem Fl.div_zero_pos (a : ℚ) (ha : 0 < a) : Fl.div (.fin a) (.fin 0) = .pinf := by
  simp [Fl.div, ha]

theorem Fl.pow_fin_pos (f : ℚ → ℚ → ℚ) (a e : ℚ) (ha : 0 < a) (he : e ≠ 0) :
    Fl.pow f (.fin a) (.fin e) = .fin (f a e) := by
  simp [Fl.pow, he, ha]

theorem Fl.pow_fin_neg_nonint (f : ℚ → ℚ → ℚ) (a e : ℚ) (ha : a < 0) (he : e ≠ 0)
    (hd : e.den ≠ 1) : Fl.pow f (.fin a) (.fin e) = .nan := by
  simp [Fl.pow, he, hd, asymm ha, ha.ne]

theorem Fl.pow_pinf_pos (f : ℚ → ℚ → ℚ) (e : ℚ) (he : 0 < e) :
    Fl.pow f .pinf (.fin e) = .pinf := by
  simp [Fl.pow, he.ne', he]

theorem Fl.mul_pinf_pos (b : ℚ) (hb : 0 < b) : Fl.mul .pinf (.fin b) = .pinf := by
  simp [Fl.mul, hb]

theorem outField_fin (a : ℚ) : outField (.fin a) = some (.fin (roundQ 1 a)) := rfl

theorem outField_nan : outField .nan = none := rfl

theorem outField_pinf : outField .pinf = some .pinf := rfl

/-- Inversion of a successful `datetime` construction: the value is the
civil day number and the fields were in range. -/
theorem mkDatetime_some {y m d r : ℤ} (h : mkDatetime y m d = some r) :
    r = rd y m d ∧ 1 ≤ y ∧ y ≤ 9999 ∧ 1 ≤ m ∧ m ≤ 12 ∧ 1 ≤ d ∧ d ≤ daysInMonth y m := by
  unfold mkDatetime at h
  split_ifs at h with hv
  cases h
  exact ⟨rfl, hv.1, hv.2.1, hv.2.2.1, hv.2.2.2.1, hv.2.2.2.2.1, hv.2.2.2.2.2⟩

/-- Inversion of a successful table window computation: the five window
starts in terms of the calendar fields, and the validity facts of the
shifted dates. -/
theorem tableWindows_inv (now : Dt) (w : Windows) (h : tableWindows now = some w) :
    w.start5d = now.ts - 5 ∧
    w.startMtd = (rd now.year now.month 1 : ℚ) ∧
    w.startYtd = (rd now.year 1 1 : ℚ) ∧
    w.start5y = (rd (now.year - 5) now.month now.day : ℚ) ∧
    w.start10y = (rd (now.year - 10) now.month now.day : ℚ) ∧
    1 ≤ now.year - 5 ∧ now.day ≤ daysInMonth (now.year - 5) now.month ∧
    1 ≤ now.year - 10 ∧ now.day ≤ daysInMonth (now.year - 10) now.month := by
  unfold tableWindows at h
  cases e1 : mkDatetime now.year 1 1 with
  | none => rw [e1] at h; exact absurd h (by simp)
  | some ytd =>
  cases e2 : mkDatetime now.year now.month 1 with
  | none => rw [e1, e2] at h; exact absurd h (by simp)
  | some mtd =>
  cases e3 : mkDatetime (now.year - 5) now.month now.day with
  | none => rw [e1, e2, e3] at h; exact absurd h (by simp)
  | some y5 =>
  cases e4 : mkDatetime (now.year - 10) now.month now.day with
  | none => rw [e1, e2, e3, e4] at h; exact absurd h (by simp)
  | some y10 =>
  rw [e1, e2, e3, e4] at h
  simp only [Option.some.injEq] at h
  obtain ⟨r1, _⟩ := mkDatetime_some e1
  obtain ⟨r2, _⟩ := mkDatetime_some e2
  obtain ⟨r3, h3⟩ := mkDatetime_some e3
  obtain ⟨r4, h4⟩ := mkDatetime_some e4
  subst h r1 r2 r3 r4
  exact ⟨rfl, rfl, rfl, rfl, rfl, h3.1, h3.2.2.2.2.2, h4.1, h4.2.2.2.2.2⟩

/-- The elapsed-day count between a date and the same month/day five
years earlier is between 1825 and 1828. -/
theorem rd_sub_5y (y m d : ℤ) :
    1825 ≤ rd y m d - rd (y - 5) m d ∧ rd y m d - rd (y - 5) m d ≤ 1828 := by
  unfold rd doy
  split_ifs <;> omega

/-- The elapsed-day count between a date and the same month/day ten
years earlier is between 3650 and 3653. -/
theorem rd_sub_10y (y m d : ℤ) :
    3650 ≤ rd y m d - rd (y - 10) m d ∧ rd y m d - rd (y - 10) m d ≤ 3653 := by
  unfold rd doy
  split_ifs <;> omega

/-- Whole elapsed days back to the 5y window start, for windows produced
by the resolver on a valid reference instant. -/
theorem days5_bounds (now : Dt) (w : Windows) (hv : now.Valid) (hw : tableWindows now = some w) :
    1825 ≤ ⌊now.ts - w.start5y⌋ ∧ ⌊now.ts - w.start5y⌋ ≤ 1828 := by
  obtain ⟨-, -, -, e5, -, -, -, -, -⟩ := tableWindows_inv now w hw
  rw [e5]
  unfold Dt.ts
  have hcast : (rd now.year now.month now.day : ℚ) + now.frac
      - (rd (now.year - 5) now.month now.day : ℚ)
      = ((rd now.year now.month now.day - rd (now.year - 5) now.month now.day : ℤ) : ℚ)
        + now.frac := by push_cast; ring
  rw [hcast, floor_int_add_frac _ _ hv.2.2.2.2.2.2.1 hv.2.2.2.2.2.2.2]
  exact rd_sub_5y now.year now.month now.day

/-- Whole elapsed days back to the 10y window start, for windows
produced by the resolver on a valid reference instant. -/
theorem days10_bounds (now : Dt) (w : Windows) (hv : now.Valid) (hw : tableWindows now = some w) :
    3650 ≤ ⌊now.ts - w.start10y⌋ ∧ ⌊now.ts - w.start10y⌋ ≤ 3653 := by
  obtain ⟨-, -, -, -, e10, -, -, -, -⟩ := tableWindows_inv now w hw
  rw [e10]
  unfold Dt.ts
  have hcast : (rd now.year now.month now.day : ℚ) + now.frac
      - (rd (now.year - 10) now.month now.day : ℚ)
      = ((rd now.year now.month now.day - rd (now.year - 10) now.month now.day : ℤ) : ℚ)
        + now.frac := by push_cast; ring
  rw [hcast, floor_int_add_frac _ _ hv.2.2.2.2.2.2.1 hv.2.2.2.2.2.2.2]
  exact rd_sub_10y now.year now.month now.day

theorem yearsFrom_gt_one {nowTs start : ℚ} (h : 400 ≤ ⌊nowTs - start⌋) :
    1 < yearsFrom nowTs start := by
  unfold yearsFrom
  have hc : (400 : ℚ) ≤ (⌊nowTs - start⌋ : ℚ) := by exact_mod_cast h
  rw [lt_div_iff₀ (by norm_num : (0 : ℚ) < 1461 / 4)]
  linarith

/-- Facts about the exponent `1 / years` when `years` exceeds one year:
it is strictly between 0 and 1, hence nonzero and not an integer. -/
theorem inv_years_facts {y : ℚ} (h : 1 < y) :
    0 < 1 / y ∧ 1 / y < 1 ∧ 1 / y ≠ 0 ∧ (1 / y).den ≠ 1 := by
  have h0 : 0 < y := lt_trans one_pos h
  have hpos : 0 < 1 / y := by positivity
  have hlt : 1 / y < 1 := by rw [div_lt_one h0]; exact h
  exact ⟨hpos, hlt, ne_of_gt hpos, den_ne_one_of_pos_lt_one _ hpos hlt⟩

theorem Fl.sub_fin (a b : ℚ) : Fl.sub (.fin a) (.fin b) = .fin (a - b) := rfl

theorem Fl.mul_fin (a b : ℚ) : Fl.mul (.fin a) (.fin b) = .fin (a * b) := rfl

theorem windowField_some (l : List Pt) (start : ℚ) (p : Pt) (hm : maskFirst l start = some p) :
    windowField l start = outField (pctChange (lastClose l) p.close) := by
  unfold windowField; rw [hm]

theorem windowField_none (l : List Pt) (start : ℚ) (hm : maskFirst l start = none) :
    windowField l start = none := by
  unfold windowField; rw [hm]; rfl

theorem cagrField_some (powf : ℚ → ℚ → ℚ) (l : List Pt) (start nowTs : ℚ) (p : Pt)
    (hm : maskFirst l start = some p) :
    cagrField powf l start nowTs
      = outField (cagrOf powf (roundQ 2 (lastClose l)) p.close (yearsFrom nowTs start)) := by
  unfold cagrField; rw [hm]

theorem cagrField_none (powf : ℚ → ℚ → ℚ) (l : List Pt) (start nowTs : ℚ)
    (hm : maskFirst l start = none) :
    cagrField powf l start nowTs = none := by
  unfold cagrField; rw [hm]; rfl

/-- The trailing-window cell computed by the code agrees with the spec's
formula whenever the closes are nonzero (finite float arithmetic on the
percent-change path). -/
theorem windowField_eq_spec (l : List Pt) (start : ℚ) (hnz : ∀ p ∈ l, p.close ≠ 0) :
    windowField l start = (specPct l start).map Fl.fin := by
  unfold specPct specWindowClose
  rw [← maskFirst_eq_find]
  cases hm : maskFirst l start with
  | none => rw [windowField_none l start hm]; rfl
  | some p =>
      have hc : p.close ≠ 0 := hnz p (maskFirst_mem hm)
      rw [windowField_some l start p hm]
      unfold pctChange
      rw [Fl.sub_fin, Fl.div_fin _ _ hc, Fl.mul_fin, outField_fin]
      rfl

/-- The CAGR cell computed by the code agrees with the spec's formula
whenever the closes are positive, the rounded latest price is positive,
and the elapsed years exceed one (the power then takes its
positive-finite-base branch). -/
theorem cagrField_eq_spec (powf : ℚ → ℚ → ℚ) (l : List Pt) (start nowTs : ℚ)
    (hpos : ∀ p ∈ l, 0 < p.close) (hlat : 0 < roundQ 2 (lastClose l))
    (hy : 1 < yearsFrom nowTs start) :
    cagrField powf l start nowTs = (specCagr powf l start nowTs).map Fl.fin := by
  unfold specCagr specWindowClose
  rw [← maskFirst_eq_find]
  cases hm : maskFirst l start with
  | none => rw [cagrField_none powf l start nowTs hm]; rfl
  | some p =>
      have hc : 0 < p.close := hpos p (maskFirst_mem hm)
      obtain ⟨-, -, hne, -⟩ := inv_years_facts hy
      rw [cagrField_some powf l start nowTs p hm]
      unfold cagrOf
      rw [Fl.div_fin _ _ (ne_of_gt hc), Fl.pow_fin_pos powf _ _ (div_pos hlat hc) hne,
        Fl.sub_fin, Fl.mul_fin, outField_fin]
      rfl

/-- A negative window close with a positive rounded latest price makes
the CAGR base negative; the non-integer power is a float domain error
(`nan` in numpy) and the cell comes out absent. -/
theorem cagrField_neg_close (powf : ℚ → ℚ → ℚ) (l : List Pt) (start nowTs : ℚ) (p : Pt)
    (hm : maskFirst l start = some p) (hneg : p.close < 0)
    (hlat : 0 < roundQ 2 (lastClose l)) (hy : 1 < yearsFrom nowTs start) :
    cagrField powf l start nowTs = none := by
  obtain ⟨-, -, hne, hden⟩ := inv_years_facts hy
  rw [cagrField_some powf l start nowTs p hm]
  unfold cagrOf
  rw [Fl.div_fin _ _ (ne_of_lt hneg),
    Fl.pow_fin_neg_nonint powf _ _ (div_neg_of_pos_of_neg hlat hneg) hne hden]
  rfl

/-- Evaluation of half-to-even rounding when the value lies strictly
below the midpoint of its decimal cell. -/
theorem roundQ_eval_lt (n : ℕ) (x : ℚ) (k : ℤ) (h1 : (k : ℚ) ≤ x * 10 ^ n)
    (h2 : x * 10 ^ n < (k : ℚ) + 1 / 2) :
    roundQ n x = (k : ℚ) / 10 ^ n := by
  unfold roundQ rhe
  rw [floorEval (x * 10 ^ n) k h1 (by linarith), if_pos (by linarith)]

/-- Evaluation of half-to-even rounding when the value lies strictly
above the midpoint of its decimal cell. -/
theorem roundQ_eval_gt (n : ℕ) (x : ℚ) (k : ℤ) (h1 : (k : ℚ) + 1 / 2 < x * 10 ^ n)
    (h2 : x * 10 ^ n < (k : ℚ) + 1) :
    roundQ n x = ((k : ℚ) + 1) / 10 ^ n := by
  unfold roundQ rhe
  rw [floorEval (x * 10 ^ n) k (by linarith) h2, if_neg (by linarith), if_pos (by linarith)]
  push_cast
  ring_nf

/-- Evaluation of half-to-even rounding at an exact midpoint with an
even floor: the tie goes down. -/
theorem roundQ_eval_half_even (n : ℕ) (x : ℚ) (k : ℤ) (h1 : x * 10 ^ n = (k : ℚ) + 1 / 2)
    (h2 : k % 2 = 0) :
    roundQ n x = (k : ℚ) / 10 ^ n := by
  unfold roundQ rhe
  rw [floorEval (x * 10 ^ n) k (by linarith) (by linarith), if_neg (by rw [h1]; norm_num),
    if_neg (by rw [h1]; norm_num), if_pos h2]

/-- Output cells are never a NaN value: the `np.isnan` guard filters the
NaN case into `None` before rounding. -/
theorem outField_some_ne_nan (x v : Fl) (h : outField x = some v) : v ≠ Fl.nan := by
  unfold outField at h
  split_ifs at h with hn
  cases h
  cases x <;> simp_all [Fl.roundTo, Fl.isnan]

theorem cagrField_some_ne_nan (powf : ℚ → ℚ → ℚ) (l : List Pt) (start nowTs : ℚ) (v : Fl)
    (h : cagrField powf l start nowTs = some v) : v ≠ Fl.nan := by
  unfold cagrField at h
  exact outField_some_ne_nan _ _ h

/-- Bounds on the elapsed-years value from bounds on the whole-day
count. -/
theorem yearsFrom_bounds {nowTs start : ℚ} {lo hi : ℤ}
    (h1 : lo ≤ ⌊nowTs - start⌋) (h2 : ⌊nowTs - start⌋ ≤ hi) :
    (lo : ℚ) / (1461 / 4) ≤ yearsFrom nowTs start ∧
      yearsFrom nowTs start ≤ (hi : ℚ) / (1461 / 4) := by
  unfold yearsFrom
  have c1 : (lo : ℚ) ≤ (⌊nowTs - start⌋ : ℚ) := by exact_mod_cast h1
  have c2 : ((⌊nowTs - start⌋ : ℤ) : ℚ) ≤ (hi : ℚ) := by exact_mod_cast h2
  constructor
  · rw [div_le_div_iff₀ (by norm_num) (by norm_num)]
    nlinarith
  · rw [div_le_div_iff₀ (by norm_num) (by norm_num)]
    nlinarith

/-! ### Claim theorems -/

/-- C3: for every ascending price series with at least 2 points (and
nonzero closes, so the percent-change arithmetic stays finite) and each
trailing window (5D, MTD, YTD), the cell is absent when no series point
lies at or after the window start, and otherwise equals
`(latest_close - window_close) / window_close * 100` rounded to 1
decimal, where `window_close` is the close of the first point with
timestamp at or after the window start and `latest_close` is the
unrounded close of the last point. -/
theorem C3_trailing_window_metrics (powf : ℚ → ℚ → ℚ) (name : String) (w : Windows)
    (now : Dt) (l : List Pt) (hasc : Ascending l) (hlen : 2 ≤ l.length)
    (hnz : ∀ p ∈ l, p.close ≠ 0) :
    (symbolRow powf name w now l).d5 = (specPct l w.start5d).map Fl.fin ∧
    (symbolRow powf name w now l).mtd = (specPct l w.startMtd).map Fl.fin ∧
    (symbolRow powf name w now l).ytd = (specPct l w.startYtd).map Fl.fin := by
  unfold symbolRow
  exact ⟨windowField_eq_spec l w.start5d hnz, windowField_eq_spec l w.startMtd hnz,
    windowField_eq_spec l w.startYtd hnz⟩

/-- C4: for every ascending price series with at least 2 points
(positive closes and positive rounded latest price) and each CAGR
window (5Y, 10Y) produced by the resolver, the cell is absent when no
point lies at or after the window start, and otherwise equals
`((latest / window_close) ** (1 / years) - 1) * 100` rounded to 1
decimal, where `latest` is the last close pre-rounded to 2 decimals and
`years = (now - window_start).days / 365.25` is computed from the fixed
window start. -/
theorem C4_cagr_metrics (powf : ℚ → ℚ → ℚ) (name : String) (w : Windows) (now : Dt)
    (l : List Pt) (hasc : Ascending l) (hlen : 2 ≤ l.length)
    (hv : now.Valid) (hw : tableWindows now = some w)
    (hpos : ∀ p ∈ l, 0 < p.close) (hlat : 0 < roundQ 2 (lastClose l)) :
    (symbolRow powf name w now l).cagr5y = (specCagr powf l w.start5y now.ts).map Fl.fin ∧
    (symbolRow powf name w now l).cagr10y = (specCagr powf l w.start10y now.ts).map Fl.fin := by
  have h5 := yearsFrom_gt_one (le_trans (by norm_num) (days5_bounds now w hv hw).1)
  have h10 := yearsFrom_gt_one (le_trans (by norm_num) (days10_bounds now w hv hw).1)
  unfold symbolRow
  exact ⟨cagrField_eq_spec powf l w.start5y now.ts hpos hlat h5,
    cagrField_eq_spec powf l w.start10y now.ts hpos hlat h10⟩

/-- C5: whenever the resolver succeeds, it maps the five period tokens
to: now minus 5 calendar days, the first day of now's month, the first
day of now's year, and the same month/day in years `now.year - 5` and
`now.year - 10`; and the chart endpoints' `time_periods` dict is the
same mapping as the table endpoints' window computation. -/
theorem C5_window_resolver (now : Dt) (w : Windows) (h : tableWindows now = some w) :
    w.start5d = now.ts - 5 ∧
    w.startMtd = (rd now.year now.month 1 : ℚ) ∧
    w.startYtd = (rd now.year 1 1 : ℚ) ∧
    w.start5y = (rd (now.year - 5) now.month now.day : ℚ) ∧
    w.start10y = (rd (now.year - 10) now.month now.day : ℚ) ∧
    chartTimePeriods now = tableWindows now := by
  obtain ⟨e1, e2, e3, e4, e5, -, -, -, -⟩ := tableWindows_inv now w h
  exact ⟨e1, e2, e3, e4, e5, rfl⟩

/-- C6: a chart period token is compared lowercased; any string whose
lowercasing is not one of the five tokens silently resolves to the
`ytd` window (so the whole endpoint behaves as if `ytd` had been
passed), and any casing of a valid token resolves that token's
window. -/
theorem C6_chart_period_token (now : Dt) (fetch : String → ℚ → Option (List Pt))
    (s : String) (w : Windows) :
    (strLower s ∉ (["5d", "mtd", "ytd", "5y", "10y"] : List String) →
      chartStartSel s w = w.startYtd ∧
      get_equity_performance s fetch now = get_equity_performance "ytd" fetch now) ∧
    (strLower s = "5d" → chartStartSel s w = w.start5d) ∧
    (strLower s = "mtd" → chartStartSel s w = w.startMtd) ∧
    (strLower s = "ytd" → chartStartSel s w = w.startYtd) ∧
    (strLower s = "5y" → chartStartSel s w = w.start5y) ∧
    (strLower s = "10y" → chartStartSel s w = w.start10y) := by
  refine ⟨fun h => ?_, fun h => ?_, fun h => ?_, fun h => ?_, fun h => ?_, fun h => ?_⟩
  · simp only [List.mem_cons, List.not_mem_nil, or_false, not_or] at h
    obtain ⟨h1, h2, h3, h4, h5⟩ := h
    have hsel : ∀ w' : Windows, chartStartSel s w' = w'.startYtd := fun w' => by
      simp [chartStartSel, h1, h2, h3, h4, h5]
    have hytd : ∀ w' : Windows, chartStartSel "ytd" w' = w'.startYtd := fun w' => by
      simp +decide [chartStartSel]
    refine ⟨hsel w, ?_⟩
    unfold get_equity_performance
    simp only [hsel, hytd]
  · simp [chartStartSel, h]
  · simp +decide [chartStartSel, h]
  · simp +decide [chartStartSel, h]
  · simp +decide [chartStartSel, h]
  · simp +decide [chartStartSel, h]

/-- C7: a symbol whose fetch fails or whose fetched series has fewer
than 2 points contributes nothing to the output — no row and no trace,
not even a null-filled one — while the rest of the basket is processed
as if the symbol were not there. -/
theorem C7_short_series_skipped (powf : ℚ → ℚ → ℚ) (b1 b2 : List (String × String))
    (sym name : String) (fetch : String → Option (List Pt))
    (cfetch : String → ℚ → Option (List Pt)) (w : Windows) (now : Dt) (s : ℚ)
    (htab : fetch sym = none ∨ ∃ l, fetch sym = some l ∧ l.length < 2)
    (hch : cfetch sym s = none ∨ ∃ l, cfetch sym s = some l ∧ l.length < 2) :
    tableRows powf (b1 ++ (sym, name) :: b2) fetch w now
      = tableRows powf (b1 ++ b2) fetch w now ∧
    chartTraces (b1 ++ (sym, name) :: b2) cfetch s = chartTraces (b1 ++ b2) cfetch s := by
  have h1 : rowFor powf fetch w now (sym, name) = none := by
    unfold rowFor
    rcases htab with h | ⟨l, hl, hlen⟩
    · rw [h]
    · rw [hl]
      simp [hlen]
  have h2 : traceFor cfetch s (sym, name) = none := by
    unfold traceFor
    rcases hch with h | ⟨l, hl, hlen⟩
    · rw [h]
    · rw [hl]
      simp [hlen]
  unfold tableRows chartTraces
  rw [List.filterMap_append, List.filterMap_append, List.filterMap_cons, h1,
    List.filterMap_append, List.filterMap_append, List.filterMap_cons, h2]
  exact ⟨rfl, rfl⟩

/-- C8: a surviving chart symbol is plotted as its closes each divided
by the first close of the fetched window and multiplied by 100, so the
first plotted value is exactly 100 (given a nonzero first close). -/
theorem C8_chart_normalization (cfetch : String → ℚ → Option (List Pt)) (s : ℚ)
    (sym name : String) (p0 : Pt) (rest : List Pt)
    (hf : cfetch sym s = some (p0 :: rest)) (hlen : 2 ≤ (p0 :: rest).length)
    (h0 : p0.close ≠ 0) :
    traceFor cfetch s (sym, name)
      = some ⟨name, (p0 :: rest).map Pt.ts, normalizeSeries (p0 :: rest)⟩ ∧
    normalizeSeries (p0 :: rest)
      = (p0 :: rest).map (fun p => Fl.mul (Fl.div (.fin p.close) (.fin p0.close)) (.fin 100)) ∧
    (normalizeSeries (p0 :: rest)).head? = some (.fin 100) := by
  refine ⟨?_, ?_, ?_⟩
  · unfold traceFor
    rw [hf]
    show (if (p0 :: rest).length < 2 then none
          else some (Trace.mk name ((p0 :: rest).map Pt.ts) (normalizeSeries (p0 :: rest))))
        = some (Trace.mk name ((p0 :: rest).map Pt.ts) (normalizeSeries (p0 :: rest)))
    rw [if_neg (Nat.not_lt.mpr hlen)]
  · unfold normalizeSeries
    rfl
  · unfold normalizeSeries
    simp only [List.headD_cons, List.map_cons, List.head?_cons, Option.some.injEq]
    rw [Fl.div_fin _ _ h0, div_self h0, Fl.mul_fin, one_mul]

/-- C10: when the reference date is a February 29, the 5-years-back
`datetime` constructor call is invalid (five years before a leap year is
never a leap year), the window computation that every endpoint performs
before its symbol loop raises, and the whole request fails for both
endpoint families — no partial output. -/
theorem C10_feb29_whole_request_fails (now : Dt) (hv : now.Valid)
    (hm : now.month = 2) (hd : now.day = 29) :
    tableWindows now = none ∧ chartTimePeriods now = none ∧
    (∀ powf fetch, get_equities_table powf fetch now = none) ∧
    (∀ s cfetch, get_equity_performance s cfetch now = none) := by
  have hdim := hv.2.2.2.2.2.1
  rw [hm, hd] at hdim
  have hleap : isLeap now.year := by
    by_cases hl : isLeap now.year
    · exact hl
    · exfalso
      rw [daysInMonth, if_pos rfl, if_neg hl] at hdim
      omega
  have h5 : ¬ isLeap (now.year - 5) := by
    obtain ⟨h4, -⟩ := hleap
    intro hcon
    obtain ⟨h4', -⟩ := hcon
    omega
  have hnone : mkDatetime (now.year - 5) now.month now.day = none := by
    unfold mkDatetime
    rw [if_neg]
    intro hc
    have := hc.2.2.2.2.2
    rw [hm, hd, daysInMonth, if_pos rfl, if_neg h5] at this
    omega
  have e1 : mkDatetime now.year 1 1 = some (rd now.year 1 1) := by
    unfold mkDatetime
    rw [if_pos]
    refine ⟨hv.1, hv.2.1, le_refl 1, by norm_num, le_refl 1, ?_⟩
    rw [daysInMonth]
    split_ifs <;> omega
  have e2 : mkDatetime now.year now.month 1 = some (rd now.year now.month 1) := by
    unfold mkDatetime
    rw [if_pos]
    refine ⟨hv.1, hv.2.1, hv.2.2.1, hv.2.2.2.1, le_refl 1, ?_⟩
    rw [daysInMonth]
    split_ifs <;> omega
  have htab : tableWindows now = none := by
    unfold tableWindows
    rw [e1, e2, hnone]
  have hchart : chartTimePeriods now = none := by
    unfold chartTimePeriods
    rw [e1, e2, hnone]
  refine ⟨htab, hchart, fun powf fetch => ?_, fun s cfetch => ?_⟩
  · unfold get_equities_table
    rw [htab]
    rfl
  · unfold get_equity_performance
    rw [hchart]
    rfl

/-- C1 (amended): a negative CAGR window close (with a positive rounded
latest price) makes the float power a domain error (`nan`), which the
`np.isnan` guard turns into an absent cell on an otherwise-valid row —
the row is still appended to the output and no numeric error reaches
the caller.  A zero window close, by contrast, does not produce a domain
error: the division yields `+inf`, which passes the `np.isnan` guard
(see the counterexample). -/
theorem C1_negative_close_cagr_absent (powf : ℚ → ℚ → ℚ) (name : String) (w : Windows)
    (now : Dt) (l : List Pt) (hv : now.Valid) (hw : tableWindows now = some w)
    (hlat : 0 < roundQ 2 (lastClose l)) :
    (∀ p, maskFirst l w.start5y = some p → p.close < 0 →
      (symbolRow powf name w now l).cagr5y = none) ∧
    (∀ p, maskFirst l w.start10y = some p → p.close < 0 →
      (symbolRow powf name w now l).cagr10y = none) ∧
    (∀ b1 b2 sym fetch, fetch sym = some l → 2 ≤ l.length →
      tableRows powf (b1 ++ (sym, name) :: b2) fetch w now
        = tableRows powf b1 fetch w now
          ++ symbolRow powf name w now l :: tableRows powf b2 fetch w now) := by
  have h5 := yearsFrom_gt_one (le_trans (by norm_num) (days5_bounds now w hv hw).1)
  have h10 := yearsFrom_gt_one (le_trans (by norm_num) (days10_bounds now w hv hw).1)
  refine ⟨fun p hm hneg => ?_, fun p hm hneg => ?_, fun b1 b2 sym fetch hf hlen => ?_⟩
  · exact cagrField_neg_close powf l w.start5y now.ts p hm hneg hlat h5
  · exact cagrField_neg_close powf l w.start10y now.ts p hm hneg hlat h10
  · have hrow : rowFor powf fetch w now (sym, name) = some (symbolRow powf name w now l) := by
      unfold rowFor
      rw [hf]
      show (if l.length < 2 then none else some (symbolRow powf name w now l)) = _
      rw [if_neg (Nat.not_lt.mpr hlen)]
    unfold tableRows
    rw [List.filterMap_append, List.filterMap_cons, hrow]

/-- C1 counterexample: with a zero 5Y window close and latest close 50,
the CAGR cell is `+inf`, not absent — the claim's "zero or negative
window close gives an absent field" fails on the zero case. -/
theorem C1_zero_close_counterexample :
    maskFirst [⟨17970, 0⟩, ⟨19797, 50⟩]
        (Windows.mk 19792 19783 19723 17970 16144).start5y = some ⟨17970, 0⟩ ∧
    (symbolRow (fun a _ => a) "NASDAQ" (Windows.mk 19792 19783 19723 17970 16144)
        (Dt.mk 2024 3 15 0) [⟨17970, 0⟩, ⟨19797, 50⟩]).cagr5y = some Fl.pinf := by
  have hmask : maskFirst [(⟨17970, 0⟩ : Pt), ⟨19797, 50⟩] (17970 : ℚ) = some ⟨17970, 0⟩ := by
    rw [maskFirst_cons, if_pos (by norm_num)]
  have hts : (Dt.mk 2024 3 15 0).ts - (17970 : ℚ) = ((1827 : ℤ) : ℚ) := by
    norm_num [Dt.ts, rd, doy]
  have hy : 1 < yearsFrom (Dt.mk 2024 3 15 0).ts 17970 := by
    apply yearsFrom_gt_one
    rw [hts, Int.floor_intCast]
    norm_num
  obtain ⟨hepos, -, hene, -⟩ := inv_years_facts hy
  refine ⟨hmask, ?_⟩
  show cagrField (fun a _ => a) [⟨17970, 0⟩, ⟨19797, 50⟩] 17970 (Dt.mk 2024 3 15 0).ts
      = some Fl.pinf
  rw [cagrField_some _ _ _ _ ⟨17970, 0⟩ hmask]
  have hlast : lastClose [(⟨17970, 0⟩ : Pt), ⟨19797, 50⟩] = 50 := rfl
  have h50 : roundQ 2 (lastClose [(⟨17970, 0⟩ : Pt), ⟨19797, 50⟩]) = 50 := by
    rw [hlast, roundQ_eval_lt 2 50 5000 (by norm_num) (by norm_num)]
    norm_num
  unfold cagrOf
  rw [h50]
  show outField
      (Fl.mul (Fl.sub (Fl.pow (fun a _ => a) (Fl.div (.fin 50) (.fin 0))
        (.fin (1 / yearsFrom (Dt.mk 2024 3 15 0).ts 17970))) (.fin 1)) (.fin 100)) = some Fl.pinf
  rw [Fl.div_zero_pos 50 (by norm_num), Fl.pow_pinf_pos _ _ hepos]
  rfl

/-- C2 (amended): the Value cell of every produced row is the last close
rounded first to 2 decimals and then to 1 decimal.  This double rounding
does not coincide with direct 1-decimal rounding for every price (see
the counterexample at 0.2549). -/
theorem C2_value_double_rounding (powf : ℚ → ℚ → ℚ) (sn : String × String) (l : List Pt)
    (basket : List (String × String)) (fetch : String → Option (List Pt)) (w : Windows)
    (now : Dt) (hsn : sn ∈ basket) (hf : fetch sn.1 = some l) (hlen : 2 ≤ l.length) :
    symbolRow powf sn.2 w now l ∈ tableRows powf basket fetch w now ∧
    (symbolRow powf sn.2 w now l).value = roundQ 1 (roundQ 2 (lastClose l)) := by
  constructor
  · unfold tableRows
    rw [List.mem_filterMap]
    refine ⟨sn, hsn, ?_⟩
    unfold rowFor
    rw [hf]
    show (if l.length < 2 then none else some (symbolRow powf sn.2 w now l)) = _
    rw [if_neg (Nat.not_lt.mpr hlen)]
  · rfl

/-- C2 counterexample: at last close 0.2549 the produced Value is 0.2
(2-decimal rounding gives 0.25, whose 1-decimal half-to-even rounding
gives 0.2), while direct 1-decimal rounding gives 0.3 — the claimed
equality of the rounding chain with direct 1-decimal rounding fails. -/
theorem C2_rounding_chain_counterexample :
    lastClose [⟨1, 1⟩, ⟨2, 2549/10000⟩] = 2549 / 10000 ∧
    (symbolRow (fun a _ => a) "NASDAQ" (Windows.mk 0 0 0 0 0) (Dt.mk 2024 3 15 0)
        [⟨1, 1⟩, ⟨2, 2549/10000⟩]).value = 2 / 10 ∧
    roundQ 1 (lastClose [⟨1, 1⟩, ⟨2, 2549/10000⟩]) = 3 / 10 ∧
    (symbolRow (fun a _ => a) "NASDAQ" (Windows.mk 0 0 0 0 0) (Dt.mk 2024 3 15 0)
        [⟨1, 1⟩, ⟨2, 2549/10000⟩]).value
      ≠ roundQ 1 (lastClose [⟨1, 1⟩, ⟨2, 2549/10000⟩]) := by
  have hlast : lastClose [(⟨1, 1⟩ : Pt), ⟨2, 2549/10000⟩] = 2549 / 10000 := rfl
  have h2dec : roundQ 2 (2549 / 10000 : ℚ) = (25 : ℚ) / 10 ^ 2 :=
    roundQ_eval_lt 2 (2549/10000) 25 (by norm_num) (by norm_num)
  have hval : (symbolRow (fun a _ => a) "NASDAQ" (Windows.mk 0 0 0 0 0) (Dt.mk 2024 3 15 0)
      [⟨1, 1⟩, ⟨2, 2549/10000⟩]).value = 2 / 10 := by
    show roundQ 1 (roundQ 2 (lastClose [⟨1, 1⟩, ⟨2, 2549/10000⟩])) = 2 / 10
    rw [hlast, h2dec, roundQ_eval_half_even 1 ((25 : ℚ) / 10 ^ 2) 2 (by norm_num) (by norm_num)]
    norm_num
  have hdirect : roundQ 1 (lastClose [(⟨1, 1⟩ : Pt), ⟨2, 2549/10000⟩]) = 3 / 10 := by
    rw [hlast, roundQ_eval_gt 1 (2549/10000) 2 (by norm_num) (by norm_num)]
    norm_num
  refine ⟨hlast, hval, hdirect, ?_⟩
  rw [hval, hdirect]
  norm_num

/-- C9 (amended): for resolver-produced windows the elapsed-years
denominator is fixed by the calendar — between 1825/365.25 and
1828/365.25 for the 5Y window and between 3650/365.25 and 3653/365.25
for the 10Y window, so `1 / years` never divides by (near) zero, for
any series including the sparse one whose only masked point is the last
point.  The computation is total and a produced CAGR cell is never NaN;
it is, however, not always finite-or-absent: a zero window close gives
`+inf` (see the counterexample). -/
theorem C9_years_denominator_safe (powf : ℚ → ℚ → ℚ) (name : String) (w : Windows)
    (now : Dt) (l : List Pt) (hv : now.Valid) (hw : tableWindows now = some w) :
    ((1825 : ℚ) / (1461 / 4) ≤ yearsFrom now.ts w.start5y ∧
      yearsFrom now.ts w.start5y ≤ (1828 : ℚ) / (1461 / 4)) ∧
    ((3650 : ℚ) / (1461 / 4) ≤ yearsFrom now.ts w.start10y ∧
      yearsFrom now.ts w.start10y ≤ (3653 : ℚ) / (1461 / 4)) ∧
    (0 < yearsFrom now.ts w.start5y ∧ 0 < yearsFrom now.ts w.start10y) ∧
    (∀ v, (symbolRow powf name w now l).cagr5y = some v → v ≠ Fl.nan) ∧
    (∀ v, (symbolRow powf name w now l).cagr10y = some v → v ≠ Fl.nan) := by
  obtain ⟨d5lo, d5hi⟩ := days5_bounds now w hv hw
  obtain ⟨d10lo, d10hi⟩ := days10_bounds now w hv hw
  have b5 := @yearsFrom_bounds now.ts w.start5y 1825 1828 d5lo d5hi
  have b10 := @yearsFrom_bounds now.ts w.start10y 3650 3653 d10lo d10hi
  have c5 : ((1825 : ℤ) : ℚ) = (1825 : ℚ) := by norm_num
  refine ⟨⟨by exact_mod_cast b5.1, by exact_mod_cast b5.2⟩,
    ⟨by exact_mod_cast b10.1, by exact_mod_cast b10.2⟩, ⟨?_, ?_⟩, ?_, ?_⟩
  · have := b5.1
    rw [c5] at this
    have : (0 : ℚ) < (1825 : ℚ) / (1461 / 4) := by norm_num
    linarith [b5.1, c5 ▸ b5.1]
  · have h0 : (0 : ℚ) < ((3650 : ℤ) : ℚ) / (1461 / 4) := by norm_num
    linarith [b10.1]
  · intro v hv'
    exact cagrField_some_ne_nan powf l w.start5y now.ts v hv'
  · intro v hv'
    exact cagrField_some_ne_nan powf l w.start10y now.ts v hv'

/-- C9 counterexample: a series whose 10Y window close is zero makes the
CAGR cell `+inf` — present and not finite — so "finite value or absent"
does not hold for every series. -/
theorem C9_infinite_cagr_counterexample :
    (symbolRow (fun a _ => a) "S&P 500" (Windows.mk 19792 19783 19723 17970 16144)
        (Dt.mk 2024 3 15 0) [⟨16144, 0⟩, ⟨19797, 80⟩]).cagr10y = some Fl.pinf := by
  have hmask : maskFirst [(⟨16144, 0⟩ : Pt), ⟨19797, 80⟩] (16144 : ℚ) = some ⟨16144, 0⟩ := by
    rw [maskFirst_cons, if_pos (by norm_num)]
  have hts : (Dt.mk 2024 3 15 0).ts - (16144 : ℚ) = ((3653 : ℤ) : ℚ) := by
    norm_num [Dt.ts, rd, doy]
  have hy : 1 < yearsFrom (Dt.mk 2024 3 15 0).ts 16144 := by
    apply yearsFrom_gt_one
    rw [hts, Int.floor_intCast]
    norm_num
  obtain ⟨hepos, -, -, -⟩ := inv_years_facts hy
  show cagrField (fun a _ => a) [⟨16144, 0⟩, ⟨19797, 80⟩] 16144 (Dt.mk 2024 3 15 0).ts
      = some Fl.pinf
  rw [cagrField_some _ _ _ _ ⟨16144, 0⟩ hmask]
  have h80 : roundQ 2 (lastClose [(⟨16144, 0⟩ : Pt), ⟨19797, 80⟩]) = 80 := by
    show roundQ 2 (80 : ℚ) = 80
    rw [roundQ_eval_lt 2 80 8000 (by norm_num) (by norm_num)]
    norm_num
  unfold cagrOf
  rw [h80]
  show outField
      (Fl.mul (Fl.sub (Fl.pow (fun a _ => a) (Fl.div (.fin 80) (.fin 0))
        (.fin (1 / yearsFrom (Dt.mk 2024 3 15 0).ts 16144))) (.fin 1)) (.fin 100)) = some Fl.pinf
  rw [Fl.div_zero_pos 80 (by norm_num), Fl.pow_pinf_pos _ _ hepos]
  rfl

/-! ### Witnesses -/

/-- Concrete validity of the reference instant 2024-03-15 00:00. -/
theorem valid_now_mar15 : (Dt.mk 2024 3 15 0).Valid :=
  ⟨by decide, by decide, by decide, by decide, by decide, by decide, by norm_num, by norm_num⟩

/-- Concrete evaluation of the window resolver at 2024-03-15 00:00. -/
theorem tableWindows_mar15 :
    tableWindows (Dt.mk 2024 3 15 0) = some (Windows.mk 19792 19783 19723 17970 16144) := by
  have m1 : mkDatetime (Dt.mk 2024 3 15 0).year 1 1 = some 19723 := by decide
  have m2 : mkDatetime (Dt.mk 2024 3 15 0).year (Dt.mk 2024 3 15 0).month 1
      = some 19783 := by decide
  have m3 : mkDatetime ((Dt.mk 2024 3 15 0).year - 5) (Dt.mk 2024 3 15 0).month
      (Dt.mk 2024 3 15 0).day = some 17970 := by decide
  have m4 : mkDatetime ((Dt.mk 2024 3 15 0).year - 10) (Dt.mk 2024 3 15 0).month
      (Dt.mk 2024 3 15 0).day = some 16144 := by decide
  unfold tableWindows
  rw [m1, m2, m3, m4]
  norm_num [Dt.ts, rd, doy]

theorem C3_witness :
    (symbolRow (fun a _ => a) "NASDAQ" (Windows.mk 1 2 3 4 5) (Dt.mk 2024 3 15 0)
        [⟨1, 1⟩, ⟨2, 2⟩]).d5
      = (specPct [⟨1, 1⟩, ⟨2, 2⟩] (Windows.mk 1 2 3 4 5).start5d).map Fl.fin ∧
    (symbolRow (fun a _ => a) "NASDAQ" (Windows.mk 1 2 3 4 5) (Dt.mk 2024 3 15 0)
        [⟨1, 1⟩, ⟨2, 2⟩]).mtd
      = (specPct [⟨1, 1⟩, ⟨2, 2⟩] (Windows.mk 1 2 3 4 5).startMtd).map Fl.fin ∧
    (symbolRow (fun a _ => a) "NASDAQ" (Windows.mk 1 2 3 4 5) (Dt.mk 2024 3 15 0)
        [⟨1, 1⟩, ⟨2, 2⟩]).ytd
      = (specPct [⟨1, 1⟩, ⟨2, 2⟩] (Windows.mk 1 2 3 4 5).startYtd).map Fl.fin :=
  C3_trailing_window_metrics (fun a _ => a) "NASDAQ" (Windows.mk 1 2 3 4 5)
    (Dt.mk 2024 3 15 0) [⟨1, 1⟩, ⟨2, 2⟩]
    (by norm_num [Ascending])
    (by decide)
    (by intro p hp
        simp only [List.mem_cons, List.not_mem_nil, or_false] at hp
        rcases hp with rfl | rfl <;> norm_num)

theorem C4_witness :
    (symbolRow (fun a _ => a) "NASDAQ" (Windows.mk 19792 19783 19723 17970 16144)
        (Dt.mk 2024 3 15 0) [⟨17970, 1⟩, ⟨19797, 2⟩]).cagr5y
      = (specCagr (fun a _ => a) [⟨17970, 1⟩, ⟨19797, 2⟩]
          (Windows.mk 19792 19783 19723 17970 16144).start5y (Dt.mk 2024 3 15 0).ts).map Fl.fin ∧
    (symbolRow (fun a _ => a) "NASDAQ" (Windows.mk 19792 19783 19723 17970 16144)
        (Dt.mk 2024 3 15 0) [⟨17970, 1⟩, ⟨19797, 2⟩]).cagr10y
      = (specCagr (fun a _ => a) [⟨17970, 1⟩, ⟨19797, 2⟩]
          (Windows.mk 19792 19783 19723 17970 16144).start10y (Dt.mk 2024 3 15 0).ts).map Fl.fin :=
  C4_cagr_metrics (fun a _ => a) "NASDAQ" (Windows.mk 19792 19783 19723 17970 16144)
    (Dt.mk 2024 3 15 0) [⟨17970, 1⟩, ⟨19797, 2⟩]
    (by norm_num [Ascending])
    (by decide)
    valid_now_mar15
    tableWindows_mar15
    (by intro p hp
        simp only [List.mem_cons, List.not_mem_nil, or_false] at hp
        rcases hp with rfl | rfl <;> norm_num)
    (by show (0 : ℚ) < roundQ 2 (2 : ℚ)
        rw [roundQ_eval_lt 2 2 200 (by norm_num) (by norm_num)]
        norm_num)

/-- Concrete validity of the reference instant 2023-07-04 06:00. -/
theorem valid_now_jul4 : (Dt.mk 2023 7 4 (1/4)).Valid :=
  ⟨by decide, by decide, by decide, by decide, by decide, by decide, by norm_num, by norm_num⟩

theorem C5_witness :
    tableWindows (Dt.mk 2023 7 4 (1/4)) = some (Windows.mk (78149/4) 19539 19358 17716 15890) ∧
    ((Windows.mk ((78149 : ℚ)/4) 19539 19358 17716 15890).start5d
        = (Dt.mk 2023 7 4 (1/4)).ts - 5 ∧
      (Windows.mk ((78149 : ℚ)/4) 19539 19358 17716 15890).startMtd
        = (rd (Dt.mk 2023 7 4 (1/4)).year (Dt.mk 2023 7 4 (1/4)).month 1 : ℚ) ∧
      (Windows.mk ((78149 : ℚ)/4) 19539 19358 17716 15890).startYtd
        = (rd (Dt.mk 2023 7 4 (1/4)).year 1 1 : ℚ) ∧
      (Windows.mk ((78149 : ℚ)/4) 19539 19358 17716 15890).start5y
        = (rd ((Dt.mk 2023 7 4 (1/4)).year - 5) (Dt.mk 2023 7 4 (1/4)).month
            (Dt.mk 2023 7 4 (1/4)).day : ℚ) ∧
      (Windows.mk ((78149 : ℚ)/4) 19539 19358 17716 15890).start10y
        = (rd ((Dt.mk 2023 7 4 (1/4)).year - 10) (Dt.mk 2023 7 4 (1/4)).month
            (Dt.mk 2023 7 4 (1/4)).day : ℚ) ∧
      chartTimePeriods (Dt.mk 2023 7 4 (1/4)) = tableWindows (Dt.mk 2023 7 4 (1/4))) := by
  have hw : tableWindows (Dt.mk 2023 7 4 (1/4))
      = some (Windows.mk (78149/4) 19539 19358 17716 15890) := by
    have m1 : mkDatetime (Dt.mk 2023 7 4 (1/4)).year 1 1 = some 19358 := by decide
    have m2 : mkDatetime (Dt.mk 2023 7 4 (1/4)).year (Dt.mk 2023 7 4 (1/4)).month 1
        = some 19539 := by decide
    have m3 : mkDatetime ((Dt.mk 2023 7 4 (1/4)).year - 5) (Dt.mk 2023 7 4 (1/4)).month
        (Dt.mk 2023 7 4 (1/4)).day = some 17716 := by decide
    have m4 : mkDatetime ((Dt.mk 2023 7 4 (1/4)).year - 10) (Dt.mk 2023 7 4 (1/4)).month
        (Dt.mk 2023 7 4 (1/4)).day = some 15890 := by decide
    unfold tableWindows
    rw [m1, m2, m3, m4]
    norm_num [Dt.ts, rd, doy]
  exact ⟨hw, C5_window_resolver (Dt.mk 2023 7 4 (1/4)) _ hw⟩

theorem C6_witness :
    strLower "XYZ" ∉ (["5d", "mtd", "ytd", "5y", "10y"] : List String) ∧
    chartStartSel "XYZ" (Windows.mk 1 2 3 4 5) = (Windows.mk (1 : ℚ) 2 3 4 5).startYtd ∧
    get_equity_performance "XYZ" (fun _ _ => none) (Dt.mk 2024 3 15 0)
      = get_equity_performance "ytd" (fun _ _ => none) (Dt.mk 2024 3 15 0) ∧
    chartStartSel "YTD" (Windows.mk 1 2 3 4 5) = (Windows.mk (1 : ℚ) 2 3 4 5).startYtd := by
  have h := C6_chart_period_token (Dt.mk 2024 3 15 0) (fun _ _ => none) "XYZ" (Windows.mk 1 2 3 4 5)
  have h2 := C6_chart_period_token (Dt.mk 2024 3 15 0) (fun _ _ => none) "YTD" (Windows.mk 1 2 3 4 5)
  exact ⟨by decide, (h.1 (by decide)).1, (h.1 (by decide)).2, h2.2.2.2.1 (by decide)⟩

theorem C7_witness :
    tableRows (fun a _ => a) ([("A", "B")] ++ ("S", "N") :: [("C", "D")])
        (fun _ => some []) (Windows.mk 1 2 3 4 5) (Dt.mk 2024 3 15 0)
      = tableRows (fun a _ => a) ([("A", "B")] ++ [("C", "D")])
          (fun _ => some []) (Windows.mk 1 2 3 4 5) (Dt.mk 2024 3 15 0) ∧
    chartTraces ([("A", "B")] ++ ("S", "N") :: [("C", "D")]) (fun _ _ => none) 19723
      = chartTraces ([("A", "B")] ++ [("C", "D")]) (fun _ _ => none) 19723 :=
  C7_short_series_skipped (fun a _ => a) [("A", "B")] [("C", "D")] "S" "N"
    (fun _ => some []) (fun _ _ => none) (Windows.mk 1 2 3 4 5) (Dt.mk 2024 3 15 0) 19723
    (Or.inr ⟨[], rfl, by decide⟩) (Or.inl rfl)

theorem C8_witness :
    traceFor (fun _ _ => some [⟨1, 2⟩, ⟨2, 4⟩]) 19723 ("^GSPC", "S&P 500")
      = some ⟨"S&P 500", ([⟨1, 2⟩, ⟨2, 4⟩] : List Pt).map Pt.ts,
          normalizeSeries [⟨1, 2⟩, ⟨2, 4⟩]⟩ ∧
    normalizeSeries [⟨1, 2⟩, ⟨2, 4⟩]
      = ([⟨1, 2⟩, ⟨2, 4⟩] : List Pt).map
          (fun p => Fl.mul (Fl.div (.fin p.close) (.fin (Pt.mk 1 2).close)) (.fin 100)) ∧
    (normalizeSeries [⟨1, 2⟩, ⟨2, 4⟩]).head? = some (.fin 100) :=
  C8_chart_normalization (fun _ _ => some [⟨1, 2⟩, ⟨2, 4⟩]) 19723 "^GSPC" "S&P 500"
    ⟨1, 2⟩ [⟨2, 4⟩] rfl (by decide) (by norm_num)

theorem C10_witness :
    tableWindows (Dt.mk 2024 2 29 0) = none ∧
    chartTimePeriods (Dt.mk 2024 2 29 0) = none ∧
    get_equities_table (fun a _ => a) (fun _ => some []) (Dt.mk 2024 2 29 0) = none ∧
    get_equity_performance "ytd" (fun _ _ => none) (Dt.mk 2024 2 29 0) = none := by
  have hv : (Dt.mk 2024 2 29 0).Valid :=
    ⟨by decide, by decide, by decide, by decide, by decide, by decide, by norm_num, by norm_num⟩
  have h := C10_feb29_whole_request_fails (Dt.mk 2024 2 29 0) hv rfl rfl
  exact ⟨h.1, h.2.1, h.2.2.1 (fun a _ => a) (fun _ => some []), h.2.2.2 "ytd" (fun _ _ => none)⟩

theorem C1_witness :
    (symbolRow (fun a _ => a) "NASDAQ" (Windows.mk 19792 19783 19723 17970 16144)
        (Dt.mk 2024 3 15 0) [⟨17970, -1⟩, ⟨19797, 2⟩]).cagr5y = none ∧
    tableRows (fun a _ => a) ([] ++ ("^NDX", "NASDAQ") :: [])
        (fun _ => some [⟨17970, -1⟩, ⟨19797, 2⟩]) (Windows.mk 19792 19783 19723 17970 16144)
        (Dt.mk 2024 3 15 0)
      = tableRows (fun a _ => a) [] (fun _ => some [⟨17970, -1⟩, ⟨19797, 2⟩])
          (Windows.mk 19792 19783 19723 17970 16144) (Dt.mk 2024 3 15 0)
        ++ symbolRow (fun a _ => a) "NASDAQ" (Windows.mk 19792 19783 19723 17970 16144)
            (Dt.mk 2024 3 15 0) [⟨17970, -1⟩, ⟨19797, 2⟩]
          :: tableRows (fun a _ => a) [] (fun _ => some [⟨17970, -1⟩, ⟨19797, 2⟩])
              (Windows.mk 19792 19783 19723 17970 16144) (Dt.mk 2024 3 15 0) := by
  have h := C1_negative_close_cagr_absent (fun a _ => a) "NASDAQ"
    (Windows.mk 19792 19783 19723 17970 16144) (Dt.mk 2024 3 15 0) [⟨17970, -1⟩, ⟨19797, 2⟩]
    valid_now_mar15 tableWindows_mar15
    (by show (0 : ℚ) < roundQ 2 (2 : ℚ)
        rw [roundQ_eval_lt 2 2 200 (by norm_num) (by norm_num)]
        norm_num)
  refine ⟨h.1 ⟨17970, -1⟩ ?_ (by norm_num), h.2.2 [] [] "^NDX" _ rfl (by decide)⟩
  rw [maskFirst_cons, if_pos (by norm_num)]

theorem C2_witness :
    symbolRow (fun a _ => a) ("S", "N").2 (Windows.mk 1 2 3 4 5) (Dt.mk 2024 3 15 0)
        [⟨1, 1⟩, ⟨2, 3⟩]
      ∈ tableRows (fun a _ => a) [("S", "N")] (fun _ => some [⟨1, 1⟩, ⟨2, 3⟩])
          (Windows.mk 1 2 3 4 5) (Dt.mk 2024 3 15 0) ∧
    (symbolRow (fun a _ => a) ("S", "N").2 (Windows.mk 1 2 3 4 5) (Dt.mk 2024 3 15 0)
        [⟨1, 1⟩, ⟨2, 3⟩]).value = roundQ 1 (roundQ 2 (lastClose [⟨1, 1⟩, ⟨2, 3⟩])) :=
  C2_value_double_rounding (fun a _ => a) ("S", "N") [⟨1, 1⟩, ⟨2, 3⟩] [("S", "N")]
    (fun _ => some [⟨1, 1⟩, ⟨2, 3⟩]) (Windows.mk 1 2 3 4 5) (Dt.mk 2024 3 15 0)
    (by decide) rfl (by decide)

theorem C9_witness :
    ((1825 : ℚ) / (1461 / 4) ≤ yearsFrom (Dt.mk 2024 3 15 0).ts
        (Windows.mk (19792 : ℚ) 19783 19723 17970 16144).start5y ∧
      yearsFrom (Dt.mk 2024 3 15 0).ts (Windows.mk (19792 : ℚ) 19783 19723 17970 16144).start5y
        ≤ (1828 : ℚ) / (1461 / 4)) ∧
    ((3650 : ℚ) / (1461 / 4) ≤ yearsFrom (Dt.mk 2024 3 15 0).ts
        (Windows.mk (19792 : ℚ) 19783 19723 17970 16144).start10y ∧
      yearsFrom (Dt.mk 2024 3 15 0).ts (Windows.mk (19792 : ℚ) 19783 19723 17970 16144).start10y
        ≤ (3653 : ℚ) / (1461 / 4)) ∧
    (0 < yearsFrom (Dt.mk 2024 3 15 0).ts
        (Windows.mk (19792 : ℚ) 19783 19723 17970 16144).start5y ∧
      0 < yearsFrom (Dt.mk 2024 3 15 0).ts
        (Windows.mk (19792 : ℚ) 19783 19723 17970 16144).start10y) := by
  have h := C9_years_denominator_safe (fun a _ => a) "NASDAQ"
    (Windows.mk 19792 19783 19723 17970 16144) (Dt.mk 2024 3 15 0) [⟨17970, 1⟩, ⟨19797, 2⟩]
    valid_now_mar15 tableWindows_mar15
  exact ⟨h.1, h.2.1, h.2.2.1⟩

end Harmoniq
